import Mathlib

/-!
Verification development for the print3d-api asynchronous job pipeline.

Shallow embedding of the job record store (src/web/database.py), the job
state machine (src/web/job_service.py), mesh generation option derivation
(src/web/mesh_options.py, src/web/materials.py) and the Meshy adapter
(src/mesh_gen.py).  External effects (image backend, mesh backend, file
system, clock) are supplied as explicit oracle values; database sessions
become explicit state passing over a list of job rows.
-/

set_option maxHeartbeats 1000000

/-- Python attribute values that flow through update_job keyword arguments.
Nullable string columns are set with vStr (a value) or vNone (SQL NULL). -/
inductive Val
| vStr (s : String)
| vNat (n : Nat)
| vInt (n : Int)
| vBool (b : Bool)
| vNone
deriving DecidableEq

/-- A row of the jobs table (JobModel in src/web/database.py).
Nullable columns are Option-typed; concept_only is Option Bool because the
Boolean column is nullable for legacy rows.  Timestamps are abstract Nat
ticks.  size_mm is kept as Int (the pipeline never computes with it). -/
structure Job where
  id : String
  description : String
  style : String
  size_mm : Int
  status : String
  created_at : Nat
  updated_at : Nat
  image_path : Option String
  image_url : Option String
  mesh_path : Option String
  mesh_url : Option String
  progress : Int
  error_message : Option String
  agent_name : Option String
  concept_only : Option Bool
deriving DecidableEq

/-- The data attributes of a JobModel row, i.e. the names for which
hasattr(job, name) holds in update_job's guard. -/
def jobFieldNames : List String :=
  ["id", "description", "style", "size_mm", "status", "created_at",
   "updated_at", "image_path", "image_url", "mesh_path", "mesh_url",
   "progress", "error_message", "agent_name", "concept_only"]

/-- hasattr(job, k) for the job record model. -/
def jobHasAttr (k : String) : Bool := jobFieldNames.contains k

/-- setattr(job, k, v) for a known column; type-incompatible or unknown
keys leave the record unchanged (the embedded callers only pass
type-correct values, enforced by wellTypedKw below). -/
def setJobField (j : Job) : String → Val → Job
| "id", Val.vStr s => { j with id := s }
| "description", Val.vStr s => { j with description := s }
| "style", Val.vStr s => { j with style := s }
| "size_mm", Val.vInt n => { j with size_mm := n }
| "status", Val.vStr s => { j with status := s }
| "created_at", Val.vNat n => { j with created_at := n }
| "updated_at", Val.vNat n => { j with updated_at := n }
| "image_path", Val.vStr s => { j with image_path := some s }
| "image_path", Val.vNone => { j with image_path := none }
| "image_url", Val.vStr s => { j with image_url := some s }
| "image_url", Val.vNone => { j with image_url := none }
| "mesh_path", Val.vStr s => { j with mesh_path := some s }
| "mesh_path", Val.vNone => { j with mesh_path := none }
| "mesh_url", Val.vStr s => { j with mesh_url := some s }
| "mesh_url", Val.vNone => { j with mesh_url := none }
| "progress", Val.vInt n => { j with progress := n }
| "error_message", Val.vStr s => { j with error_message := some s }
| "error_message", Val.vNone => { j with error_message := none }
| "agent_name", Val.vStr s => { j with agent_name := some s }
| "agent_name", Val.vNone => { j with agent_name := none }
| "concept_only", Val.vBool b => { j with concept_only := some b }
| _, _ => j

/-- The kwargs loop of update_job: for key, value in kwargs.items():
if hasattr(job, key): setattr(job, key, value). -/
def applyKwargs (j : Job) : List (String × Val) → Job
| [] => j
| (k, v) :: rest =>
    applyKwargs (if jobHasAttr k then setJobField j k v else j) rest

/-- get_job(db, job_id): first row whose primary key matches. -/
def getJob (db : List Job) (job_id : String) : Option Job :=
  db.find? (fun j => j.id == job_id)

/-- Replace (in place) the first row whose id matches, as SQLAlchemy
mutates the fetched object. -/
def updateJobList : List Job → String → Job → List Job
| [], _, _ => []
| j :: rest, job_id, j2 =>
    if j.id == job_id then j2 :: rest else j :: updateJobList rest job_id j2

/-- update_job(db, job_id, **kwargs): partial merge of recognized fields,
then updated_at is refreshed; returns the job (None when not found). -/
def update_job (db : List Job) (job_id : String) (kwargs : List (String × Val))
    (now : Nat) : Option Job × List Job :=
  match getJob db job_id with
  | none => (none, db)
  | some j =>
      let j2 := { applyKwargs j kwargs with updated_at := now }
      (some j2, updateJobList db job_id j2)

/-- create_job: a fresh PENDING row appended to the table. -/
def create_job (db : List Job) (job_id description style : String)
    (size_mm : Int) (agent_name : Option String) (concept_only : Bool)
    (now : Nat) : Job × List Job :=
  let j : Job :=
    { id := job_id, description := description, style := style,
      size_mm := size_mm, status := "pending",
      created_at := now, updated_at := now,
      image_path := none, image_url := none,
      mesh_path := none, mesh_url := none,
      progress := 0, error_message := none,
      agent_name := agent_name, concept_only := some concept_only }
  (j, db ++ [j])

/-- A sample row used by concrete witnesses and counterexamples. -/
def sampleJob : Job :=
  { id := "a", description := "d", style := "figurine", size_mm := 0,
    status := "pending", created_at := 0, updated_at := 0,
    image_path := none, image_url := none, mesh_path := none,
    mesh_url := none, progress := 0, error_message := none,
    agent_name := none, concept_only := some false }

example :
    (update_job [sampleJob] "a"
      [("status", Val.vStr "failed"), ("mesh_urls_json", Val.vStr "x")] 7).1.map
      (fun j => (j.status, j.updated_at)) = some ("failed", 7) := by decide

/-! Meshy adapter (src/mesh_gen.py). -/

/-- Meshy task status values. -/
inductive TaskStatus
| PENDING
| IN_PROGRESS
| SUCCEEDED
| FAILED
| EXPIRED
deriving DecidableEq

/-- The .value string of a TaskStatus. -/
def taskStatusVal : TaskStatus → String
| TaskStatus.PENDING => "PENDING"
| TaskStatus.IN_PROGRESS => "IN_PROGRESS"
| TaskStatus.SUCCEEDED => "SUCCEEDED"
| TaskStatus.FAILED => "FAILED"
| TaskStatus.EXPIRED => "EXPIRED"

/-- One MeshResult as returned by get_task_status during polling: status,
progress and the format-to-url map (other fields are not consumed by the
pipeline). -/
structure PollRes where
  status : TaskStatus
  progress : Nat
  model_urls : List (String × String)
deriving DecidableEq

/-- dict.get on the format-to-url map. -/
def lookupUrl (format : String) (urls : List (String × String)) : Option String :=
  (urls.find? (fun kv => kv.1 == format)).map (fun kv => kv.2)

/-- result.is_complete. -/
def PollRes.isComplete (r : PollRes) : Bool := r.status == TaskStatus.SUCCEEDED

/-- result.is_failed: FAILED or EXPIRED. -/
def PollRes.isFailed (r : PollRes) : Bool :=
  r.status == TaskStatus.FAILED || r.status == TaskStatus.EXPIRED

/-- The two distinct exception kinds wait_for_completion can raise:
MeshyAPIError on a failed/expired task, TimeoutError on exceeding the
maximum wait. -/
inductive WaitErr
| meshy (msg : String)
| timedOut (msg : String)
deriving DecidableEq

/-- wait_for_completion for task tid.  polls i is the MeshResult of the
i-th get_task_status call, elapsed i the wall-clock seconds since start
at the i-th loop iteration (the loop sleeps poll_interval between polls).
last is the last progress value reported to on_progress (-1 initially);
the returned list is the sequence of on_progress reports.  fuel bounds
the number of iterations; none means fuel ran out. -/
def waitFrom (tid : String) (polls : Nat → PollRes) (elapsed : Nat → Nat)
    (timeout : Nat) : Nat → Int → Nat → Option (Except WaitErr PollRes × List Nat)
| _, _, 0 => none
| i, last, fuel + 1 =>
    let r := polls i
    let rep : List Nat := if (r.progress : Int) == last then [] else [r.progress]
    if r.isComplete then
      some (Except.ok r, rep)
    else if r.isFailed then
      some (Except.error (WaitErr.meshy
        ("Task failed with status: " ++ taskStatusVal r.status)), rep)
    else if timeout < elapsed i then
      some (Except.error (WaitErr.timedOut
        ("Task " ++ tid ++ " did not complete within " ++ toString timeout ++ "s")), rep)
    else
      match waitFrom tid polls elapsed timeout (i + 1) (r.progress : Int) fuel with
      | none => none
      | some (out, reps) => some (out, rep ++ reps)

/-- MeshOptions of src/mesh_gen.py with its defaults (triangle topology,
no polycount target, PBR enabled). -/
structure MeshOptions where
  topology : String := "triangle"
  target_polycount : Option Nat := none
  enable_pbr : Bool := true
deriving DecidableEq

/-- MeshOptions.to_api_params: topology and enable_pbr always, plus
target_polycount when truthy (present and nonzero). -/
def MeshOptions.to_api_params (o : MeshOptions) : List (String × Val) :=
  [("topology", Val.vStr o.topology), ("enable_pbr", Val.vBool o.enable_pbr)]
    ++ (match o.target_polycount with
        | some n => if n == 0 then [] else [("target_polycount", Val.vNat n)]
        | none => [])

/-- The JSON payload create_task posts to the backend: the image url plus
the api params of the given options, defaulting to MeshOptions() when the
caller passed none (options = options or MeshOptions()). -/
def createTaskPayload (image_url : String) (options : Option MeshOptions) :
    List (String × Val) :=
  ("image_url", Val.vStr image_url) :: (options.getD {}).to_api_params

/-- MeshGenerator.download on a completed result: raises ValueError when
the requested format has no url, otherwise fetches the url (fetch oracle)
and returns the local path task_id.format. -/
def downloadMesh (tid : String) (r : PollRes) (format : String)
    (fetch : String → Except String Unit) : Except String String :=
  match lookupUrl format r.model_urls with
  | none =>
      Except.error ("Format " ++ format ++ " not available. Available: "
        ++ String.intercalate ", " (r.model_urls.map (fun kv => kv.1)))
  | some url =>
      match fetch url with
      | Except.error msg => Except.error msg
      | Except.ok _ => Except.ok (tid ++ "." ++ format)

/-- The mesh backend world one from_image call runs against. -/
structure MeshEnv where
  createTask : Except String String
  polls : Nat → PollRes
  elapsed : Nat → Nat
  timeout : Nat
  fetch : String → Except String Unit

/-- The data process_job consumes from a successful from_image call. -/
structure MeshOut where
  model_urls : List (String × String)
  local_path : Option String
deriving DecidableEq

/-- MeshGenerator.from_image (via from_image_async): create the task, wait
for completion (collecting on_progress reports), then download the
requested format.  Any exception of a stage becomes the error message the
caller sees; none propagates fuel exhaustion of the wait loop. -/
def fromImage (menv : MeshEnv) (format : String) (fuel : Nat) :
    Option (Except String MeshOut × List Nat) :=
  match menv.createTask with
  | Except.error msg => some (Except.error msg, [])
  | Except.ok tid =>
      match waitFrom tid menv.polls menv.elapsed menv.timeout 0 (-1) fuel with
      | none => none
      | some (Except.error (WaitErr.meshy msg), reps) => some (Except.error msg, reps)
      | some (Except.error (WaitErr.timedOut msg), reps) => some (Except.error msg, reps)
      | some (Except.ok r, reps) =>
          match downloadMesh tid r format menv.fetch with
          | Except.error msg => some (Except.error msg, reps)
          | Except.ok path =>
              some (Except.ok { model_urls := r.model_urls, local_path := some path }, reps)

/-! Mesh generation options (src/web/mesh_options.py) and materials
(src/web/materials.py). -/

/-- A user-facing mesh style preset. -/
structure MeshStyleOption where
  key : String
  name : String
  name_es : String
  description : String
  description_es : String
  meshy_model_type : String
  recommended_polycount : Nat
deriving DecidableEq

/-- The MESH_STYLES table. -/
def MESH_STYLES : List (String × MeshStyleOption) :=
  [("detailed",
    { key := "detailed", name := "Detailed", name_es := "Detallado",
      description := "High detail, realistic look. Best for organic shapes.",
      description_es := "Alto detalle, aspecto realista. Mejor para formas orgánicas.",
      meshy_model_type := "standard", recommended_polycount := 100000 }),
   ("stylized",
    { key := "stylized", name := "Stylized", name_es := "Estilizado",
      description := "Clean low-poly look. Modern and artistic.",
      description_es := "Aspecto low-poly limpio. Moderno y artístico.",
      meshy_model_type := "lowpoly", recommended_polycount := 5000 })]

/-- MESH_STYLES.get(key). -/
def meshStylesGet (key : String) : Option MeshStyleOption :=
  (MESH_STYLES.find? (fun kv => kv.1 == key)).map (fun kv => kv.2)

/-- A printable material; of the source fields the pipeline consumes only
key and supports_full_color (prices, colors and display names are
pricing/UI data untouched by mesh option derivation). -/
structure Material where
  key : String
  supports_full_color : Bool
deriving DecidableEq

/-- The MATERIALS table, projected to the consumed fields. -/
def MATERIALS : List (String × Material) :=
  [("plastic_white", { key := "plastic_white", supports_full_color := false }),
   ("plastic_color", { key := "plastic_color", supports_full_color := false }),
   ("resin_premium", { key := "resin_premium", supports_full_color := false }),
   ("full_color", { key := "full_color", supports_full_color := true }),
   ("metal_steel", { key := "metal_steel", supports_full_color := false })]

/-- get_material(key). -/
def get_material (key : String) : Option Material :=
  (MATERIALS.find? (fun kv => kv.1 == key)).map (fun kv => kv.2)

/-- MeshGenerationOptions of src/web/mesh_options.py with its defaults. -/
structure MeshGenerationOptions where
  model_type : String := "standard"
  ai_model : String := "latest"
  topology : String := "triangle"
  target_polycount : Option Nat := none
  enable_pbr : Bool := false
  should_texture : Bool := true
  symmetry_mode : String := "auto"
deriving DecidableEq

/-- MeshGenerationOptions.from_user_selection: style preset (falling back
to the detailed preset on an unknown key) fixes model type and polycount;
the material decides PBR (enabled exactly when it supports full color,
false when the material key is unknown). -/
def MeshGenerationOptions.from_user_selection (style_key material_key : String) :
    MeshGenerationOptions :=
  let style := (meshStylesGet style_key).getD
    { key := "detailed", name := "Detailed", name_es := "Detallado",
      description := "High detail, realistic look. Best for organic shapes.",
      description_es := "Alto detalle, aspecto realista. Mejor para formas orgánicas.",
      meshy_model_type := "standard", recommended_polycount := 100000 }
  let material := get_material material_key
  let enable_pbr := match material with
    | some m => m.supports_full_color
    | none => false
  { model_type := style.meshy_model_type, ai_model := "latest",
    topology := "triangle", target_polycount := some style.recommended_polycount,
    enable_pbr := enable_pbr, should_texture := true, symmetry_mode := "auto" }

example :
    (MeshGenerationOptions.from_user_selection "stylized" "plastic_white").model_type
      = "lowpoly" := by decide

example :
    (MeshGenerationOptions.from_user_selection "detailed" "full_color").enable_pbr
      = true := by decide

/-! Job service (src/web/job_service.py). -/

/-- Observable calls the pipeline makes: database writes, the image
backend call, the option derivation and the mesh backend call.  The
meshFromImage options field is the options argument passed to from_image
(none means the MeshOptions defaults are used). -/
inductive Call
| updateJob (job_id : String) (kwargs : List (String × Val))
| imageGenCall (prompt : String) (style : String)
| optionsDerived (opts : MeshGenerationOptions)
| meshFromImage (image_url : String) (options : Option MeshOptions) (format : String)
deriving DecidableEq

/-- The external world one pipeline pass runs against: the clock, the
image backend outcome, the image file read, and the outcome of the mesh
stage (the on_progress report sequence and the from_image result, as
produced by fromImage). -/
structure PipelineEnv where
  now : Nat
  imageGen : Except String Unit
  readImage : Except String String
  meshReports : List Nat
  meshOutcome : Except String MeshOut

/-- job_id.startswith of Python, written as a structural list prefix
test so that concrete runs reduce inside the kernel. -/
def startsWithPy (s pre : String) : Bool := pre.data.isPrefixOf s.data

/-- The kwargs of the except-handler update: status=FAILED,
error_message=str(e). -/
def failKw (msg : String) : List (String × Val) :=
  [("status", Val.vStr "failed"), ("error_message", Val.vStr msg)]

/-- on_mesh_progress in process_job persists 50 + int(p * 0.4).  For the
backend progress range 0..100 the double-precision product truncates to
the exact floor, so the stored value is 50 + 2 * p / 5. -/
def processMeshProgress (p : Nat) : Nat := 50 + 2 * p / 5

/-- on_mesh_progress in generate_mesh_for_job persists 50 + int(p * 0.5)
= 50 + p / 2. -/
def genMeshProgress (p : Nat) : Nat := 50 + p / 2

/-- The sequence of database writes the on_progress callback performs for
the given report sequence, with f the progress mapping of the call site. -/
def meshProgressWrites (db : List Job) (job_id : String) (f : Nat → Nat)
    (now : Nat) : List Nat → List Job × List Call
| [] => (db, [])
| p :: rest =>
    let kw := [("progress", Val.vInt ((f p : Nat) : Int))]
    let db2 := (update_job db job_id kw now).2
    let r := meshProgressWrites db2 job_id f now rest
    (r.1, Call.updateJob job_id kw :: r.2)

/-- Stand-in for json.dumps on the format-to-url dict (the serialized text
is never consumed: the mesh_urls_json keyword is not a JobModel column and
update_job discards it). -/
def jsonDumps (urls : List (String × String)) : String :=
  String.intercalate "," (urls.map (fun kv => kv.1 ++ "=" ++ kv.2))

/-- A nullable string as an update_job value. -/
def optStrVal : Option String → Val
| some s => Val.vStr s
| none => Val.vNone

/-- The final persist of a successful mesh pass: mesh_path, mesh_url
(glb url, else obj url), mesh_urls_json (json.dumps of the map when
nonempty, else None), progress=100, status=COMPLETED. -/
def completedKw (mesh_filename : String) (mo : MeshOut) : List (String × Val) :=
  let mesh_url := match lookupUrl "glb" mo.model_urls with
    | some u => some u
    | none => lookupUrl "obj" mo.model_urls
  let mesh_urls_json := if mo.model_urls.isEmpty then none
    else some (jsonDumps mo.model_urls)
  [("mesh_path", Val.vStr ("/output/" ++ mesh_filename)),
   ("mesh_url", optStrVal mesh_url),
   ("mesh_urls_json", optStrVal mesh_urls_json),
   ("progress", Val.vInt 100),
   ("status", Val.vStr "completed")]

/-- RealJobService.process_job: one full pass of the state machine.
Returns the Python return value, the final table and the call trace.
Every exception a stage raises is caught and persisted as status=FAILED
with error_message = the exception text. -/
def processJob (env : PipelineEnv) (db0 : List Job) (job_id : String) :
    Bool × List Job × List Call :=
  match getJob db0 job_id with
  | none => (false, db0, [])
  | some job =>
    let concept_only := (job.concept_only == some true)
      || startsWithPy job_id "concept_"
    let kw1 : List (String × Val) :=
      [("status", Val.vStr "generating_image"), ("progress", Val.vInt 20)]
    let db1 := (update_job db0 job_id kw1 env.now).2
    let c1 : List Call :=
      [Call.updateJob job_id kw1, Call.imageGenCall job.description job.style]
    match env.imageGen with
    | Except.error msg =>
        (false, (update_job db1 job_id (failKw msg) env.now).2,
          c1 ++ [Call.updateJob job_id (failKw msg)])
    | Except.ok _ =>
      let image_filename := job_id ++ "_" ++ toString env.now ++ ".png"
      let kw2 : List (String × Val) :=
        [("image_path", Val.vStr ("/output/" ++ image_filename)),
         ("image_url", Val.vStr ("/output/" ++ image_filename)),
         ("progress", Val.vInt (if concept_only then 100 else 40)),
         ("status", Val.vStr (if concept_only then "concept_ready" else "generating_image"))]
      let db2 := (update_job db1 job_id kw2 env.now).2
      let c2 := c1 ++ [Call.updateJob job_id kw2]
      if concept_only then
        (true, db2, c2)
      else
        let kw3 : List (String × Val) :=
          [("status", Val.vStr "converting_3d"), ("progress", Val.vInt 50)]
        let db3 := (update_job db2 job_id kw3 env.now).2
        let c3 := c2 ++ [Call.updateJob job_id kw3]
        match env.readImage with
        | Except.error msg =>
            (false, (update_job db3 job_id (failKw msg) env.now).2,
              c3 ++ [Call.updateJob job_id (failKw msg)])
        | Except.ok b64 =>
          let image_url := "data:image/png;base64," ++ b64
          let cm := c3 ++ [Call.meshFromImage image_url none "glb"]
          let pw := meshProgressWrites db3 job_id processMeshProgress env.now env.meshReports
          let c4 := cm ++ pw.2
          match env.meshOutcome with
          | Except.error msg =>
              (false, (update_job pw.1 job_id (failKw msg) env.now).2,
                c4 ++ [Call.updateJob job_id (failKw msg)])
          | Except.ok mo =>
            let mesh_filename := job_id ++ "_" ++ toString env.now ++ ".glb"
            let kw5 := completedKw mesh_filename mo
            (true, (update_job pw.1 job_id kw5 env.now).2,
              c4 ++ [Call.updateJob job_id kw5])

/-- RealJobService.generate_mesh_for_job: the deferred trigger.  Returns
False untouched on an unknown job or a job without a concept image;
otherwise transitions to CONVERTING_3D, derives the mesh options from the
user selection (without forwarding them to from_image), and runs the mesh
stage with the same persist sequence as process_job. -/
def generateMeshForJob (env : PipelineEnv) (db0 : List Job)
    (job_id mesh_style material_key : String) : Bool × List Job × List Call :=
  match getJob db0 job_id with
  | none => (false, db0, [])
  | some job =>
    match job.image_path with
    | none => (false, db0, [])
    | some _ =>
      let kw1 : List (String × Val) :=
        [("status", Val.vStr "converting_3d"), ("progress", Val.vInt 50)]
      let db1 := (update_job db0 job_id kw1 env.now).2
      let c1 : List Call := [Call.updateJob job_id kw1]
      match env.readImage with
      | Except.error msg =>
          (false, (update_job db1 job_id (failKw msg) env.now).2,
            c1 ++ [Call.updateJob job_id (failKw msg)])
      | Except.ok b64 =>
        let image_url := "data:image/png;base64," ++ b64
        let mesh_options :=
          MeshGenerationOptions.from_user_selection mesh_style material_key
        let cm := c1 ++ [Call.optionsDerived mesh_options,
          Call.meshFromImage image_url none "glb"]
        let pw := meshProgressWrites db1 job_id genMeshProgress env.now env.meshReports
        let c4 := cm ++ pw.2
        match env.meshOutcome with
        | Except.error msg =>
            (false, (update_job pw.1 job_id (failKw msg) env.now).2,
              c4 ++ [Call.updateJob job_id (failKw msg)])
        | Except.ok mo =>
          let mesh_filename := job_id ++ "_" ++ toString env.now ++ ".glb"
          let kw5 := completedKw mesh_filename mo
          (true, (update_job pw.1 job_id kw5 env.now).2,
            c4 ++ [Call.updateJob job_id kw5])

/-- RealJobService.submit_concept_job: create a PENDING row whose id has
the concept prefix, with concept_only=True and size 0, and enqueue it.
suffix stands for the timestamp-and-uuid part of the generated id. -/
def submitConceptJob (db : List Job) (agent_name description style suffix : String)
    (now : Nat) : String × List Job :=
  let job_id := "concept_" ++ suffix
  (job_id, (create_job db job_id description style 0 (some agent_name) true now).2)

/-- RealJobService.submit_job: create a PENDING row whose id has the
plain job prefix, for the full pipeline. -/
def submitJob (db : List Job) (agent_name description style : String)
    (size_mm : Int) (suffix : String) (now : Nat) : String × List Job :=
  let job_id := "job_" ++ suffix
  (job_id, (create_job db job_id description style size_mm (some agent_name) false now).2)

/-- RealJobService.worker_loop restricted to a finite queue: dequeue ids
in FIFO order and run process_job on each; process_job never lets an
exception escape, so the loop reaches every queued id.  Returns the final
table and the (id, outcome) list in processing order. -/
def workerRun (envs : String → PipelineEnv) (db0 : List Job) :
    List String → List Job × List (String × Bool)
| [] => (db0, [])
| id :: rest =>
    let r := processJob (envs id) db0 id
    let later := workerRun envs r.2.1 rest
    (later.1, (id, r.1) :: later.2)

/-! Trace projections and the status transition graph. -/

/-- The status value an update_job call writes, when it writes one. -/
def kwargsStatus (kw : List (String × Val)) : Option String :=
  match kw.find? (fun kv => kv.1 == "status") with
  | some (_, Val.vStr s) => some s
  | _ => none

/-- The sequence of status values written over a trace. -/
def statusWrites (tr : List Call) : List String :=
  tr.filterMap (fun c => match c with
    | Call.updateJob _ kw => kwargsStatus kw
    | _ => none)

/-- The progress values written by progress-only updates (exactly the
on_mesh_progress writes: every other update bundles further fields). -/
def progressOnlyWrites (tr : List Call) : List Int :=
  tr.filterMap (fun c => match c with
    | Call.updateJob _ [("progress", Val.vInt v)] => some v
    | _ => none)

/-- The mesh backend invocations of a trace. -/
def meshCalls (tr : List Call) : List Call :=
  tr.filter (fun c => match c with
    | Call.meshFromImage _ _ _ => true
    | _ => false)

/-- The status transition graph of the specification: PENDING →
GENERATING_IMAGE → (CONCEPT_READY | CONVERTING_3D) → COMPLETED, FAILED
from any non-terminal state, and the deferred re-entry CONCEPT_READY →
CONVERTING_3D. -/
def allowedTransition : String → String → Bool
| "pending", "generating_image" => true
| "generating_image", "concept_ready" => true
| "generating_image", "converting_3d" => true
| "concept_ready", "converting_3d" => true
| "converting_3d", "completed" => true
| "pending", "failed" => true
| "generating_image", "failed" => true
| "concept_ready", "failed" => true
| "converting_3d", "failed" => true
| _, _ => false

/-- A write sequence is legal from prev when every write either repeats
the current status (no observable transition) or follows an allowed
edge. -/
def chainOk : String → List String → Bool
| _, [] => true
| prev, s :: rest => (s == prev || allowedTransition prev s) && chainOk s rest

example : chainOk "pending"
    ["generating_image", "generating_image", "converting_3d", "completed"] = true := by
  decide

/-! Helper lemmas about the job store. -/

theorem getJob_some_id {db : List Job} {job_id : String} {j : Job}
    (h : getJob db job_id = some j) : j.id = job_id := by
  have := List.find?_some h
  simpa using this

theorem getJob_updateJobList {db : List Job} {job_id : String} {j j2 : Job}
    (h : getJob db job_id = some j) (hid : j2.id = job_id) :
    getJob (updateJobList db job_id j2) job_id = some j2 := by
  induction db with
  | nil => simp [getJob] at h
  | cons x rest ih =>
      by_cases hx : x.id == job_id
      · simp [getJob, updateJobList, hx, List.find?_cons_of_pos, hid]
      · unfold getJob at h ⊢
        rw [@List.find?_cons_of_neg Job (fun j => j.id == job_id) x rest hx] at h
        simp only [updateJobList]
        rw [if_neg hx]
        rw [@List.find?_cons_of_neg Job (fun j => j.id == job_id) x
          (updateJobList rest job_id j2) hx]
        exact ih h

theorem update_job_step {db : List Job} {job_id : String} {j : Job}
    (kw : List (String × Val)) (now : Nat)
    (h : getJob db job_id = some j) (hid : (applyKwargs j kw).id = job_id) :
    getJob (update_job db job_id kw now).2 job_id
      = some { applyKwargs j kw with updated_at := now } := by
  unfold update_job
  rw [h]
  exact getJob_updateJobList h hid

theorem getJob_append_fresh {db : List Job} {job_id : String} {j : Job}
    (h : getJob db job_id = none) (hid : j.id = job_id) :
    getJob (db ++ [j]) job_id = some j := by
  unfold getJob at h ⊢
  rw [List.find?_append, h]
  simp [hid]

/-! Reduction lemmas for the concrete kwargs shapes the pipeline writes. -/

theorem applyKwargs_statusProgress (j : Job) (s : String) (n : Int) :
    applyKwargs j [("status", Val.vStr s), ("progress", Val.vInt n)]
      = { j with status := s, progress := n } := rfl

theorem applyKwargs_failKw (j : Job) (msg : String) :
    applyKwargs j (failKw msg)
      = { j with status := "failed", error_message := some msg } := rfl

theorem applyKwargs_imageDone (j : Job) (p u : String) (n : Int) (s : String) :
    applyKwargs j [("image_path", Val.vStr p), ("image_url", Val.vStr u),
        ("progress", Val.vInt n), ("status", Val.vStr s)]
      = { j with
          image_path := some p, image_url := some u,
          progress := n, status := s } := rfl

theorem applyKwargs_progressOnly (j : Job) (n : Int) :
    applyKwargs j [("progress", Val.vInt n)] = { j with progress := n } := rfl

theorem applyKwargs_completedKw (j : Job) (fn : String) (mo : MeshOut) :
    applyKwargs j (completedKw fn mo)
      = { j with
          mesh_path := some ("/output/" ++ fn),
          mesh_url := (match lookupUrl "glb" mo.model_urls with
            | some u => some u
            | none => lookupUrl "obj" mo.model_urls),
          progress := 100, status := "completed" } := by
  unfold completedKw
  rcases hu : (match lookupUrl "glb" mo.model_urls with
    | some u => some u
    | none => lookupUrl "obj" mo.model_urls) with _ | u <;>
    rcases hj : (if mo.model_urls.isEmpty then none
      else some (jsonDumps mo.model_urls)) with _ | jt <;>
    simp only [hu, hj, optStrVal] <;> rfl

/-- A progress-only write chain keeps the row present with its id, status,
error_message, image_path and mesh_path unchanged. -/
theorem meshProgressWrites_keeps {job_id : String} (f : Nat → Nat) (now : Nat)
    (reports : List Nat) :
    ∀ db j, getJob db job_id = some j → j.id = job_id →
      ∃ j2, getJob (meshProgressWrites db job_id f now reports).1 job_id = some j2
        ∧ j2.id = job_id ∧ j2.status = j.status
        ∧ j2.error_message = j.error_message
        ∧ j2.image_path = j.image_path ∧ j2.mesh_path = j.mesh_path := by
  induction reports with
  | nil => intro db j h hid; exact ⟨j, h, hid, rfl, rfl, rfl, rfl⟩
  | cons p rest ih =>
      intro db j h hid
      have hstep := update_job_step [("progress", Val.vInt ((f p : Nat) : Int))] now h
        (by rw [applyKwargs_progressOnly]; exact hid)
      rw [applyKwargs_progressOnly] at hstep
      obtain ⟨j2, h2, hid2, hs, he, hip, hmp⟩ := ih _ _ hstep (by exact hid)
      exact ⟨j2, h2, hid2, hs, he, hip, hmp⟩

/-- The progress-only chain writes no status values. -/
theorem statusWrites_meshProgressWrites (db : List Job) (job_id : String)
    (f : Nat → Nat) (now : Nat) (reports : List Nat) :
    statusWrites (meshProgressWrites db job_id f now reports).2 = [] := by
  induction reports generalizing db with
  | nil => rfl
  | cons p rest ih =>
      simp only [meshProgressWrites, statusWrites, List.filterMap_cons]
      have := ih (update_job db job_id [("progress", Val.vInt ((f p : Nat) : Int))] now).2
      simpa [statusWrites, kwargsStatus] using this

/-- The progress-only chain records exactly the mapped reports. -/
theorem progressOnlyWrites_meshProgressWrites (db : List Job) (job_id : String)
    (f : Nat → Nat) (now : Nat) (reports : List Nat) :
    progressOnlyWrites (meshProgressWrites db job_id f now reports).2
      = reports.map (fun p => ((f p : Nat) : Int)) := by
  induction reports generalizing db with
  | nil => rfl
  | cons p rest ih =>
      simp only [meshProgressWrites, progressOnlyWrites, List.filterMap_cons]
      have := ih (update_job db job_id [("progress", Val.vInt ((f p : Nat) : Int))] now).2
      simpa [progressOnlyWrites] using this

/-- The progress-only chain makes no mesh backend calls. -/
theorem meshCalls_meshProgressWrites (db : List Job) (job_id : String)
    (f : Nat → Nat) (now : Nat) (reports : List Nat) :
    meshCalls (meshProgressWrites db job_id f now reports).2 = [] := by
  induction reports generalizing db with
  | nil => rfl
  | cons p rest ih =>
      simp only [meshProgressWrites, meshCalls, List.filter_cons]
      have := ih (update_job db job_id [("progress", Val.vInt ((f p : Nat) : Int))] now).2
      simpa [meshCalls] using this

/-! Concrete fixtures for witnesses and counterexamples. -/

/-- An environment where every stage succeeds. -/
def envOkJob : PipelineEnv :=
  { now := 5
    imageGen := Except.ok ()
    readImage := Except.ok "QUJD"
    meshReports := [0, 55, 100]
    meshOutcome := Except.ok
      { model_urls := [("glb", "g"), ("obj", "o")], local_path := some "t.glb" } }

/-- envOkJob with a single backend progress report of 90. -/
def envRep90 : PipelineEnv :=
  { now := 5
    imageGen := Except.ok ()
    readImage := Except.ok "QUJD"
    meshReports := [90]
    meshOutcome := Except.ok
      { model_urls := [("glb", "g"), ("obj", "o")], local_path := some "t.glb" } }

/-- A finished full job: COMPLETED with both artifacts present. -/
def completedJob : Job :=
  { id := "job_d", description := "d", style := "figurine", size_mm := 50,
    status := "completed", created_at := 0, updated_at := 0,
    image_path := some "/output/j.png", image_url := some "/output/j.png",
    mesh_path := some "/output/j.glb", mesh_url := some "g",
    progress := 100, error_message := none, agent_name := none,
    concept_only := some false }

/-- A concept job awaiting its deferred trigger. -/
def conceptReadyJob : Job :=
  { id := "c1", description := "d", style := "figurine", size_mm := 0,
    status := "concept_ready", created_at := 0, updated_at := 0,
    image_path := some "/output/c.png", image_url := some "/output/c.png",
    mesh_path := none, mesh_url := none,
    progress := 100, error_message := none, agent_name := none,
    concept_only := some true }

/-- A job whose id has the concept prefix while its concept_only column
is explicitly False. -/
def conceptPrefixJob : Job :=
  { id := "concept_x", description := "d", style := "figurine", size_mm := 50,
    status := "pending", created_at := 0, updated_at := 0,
    image_path := none, image_url := none, mesh_path := none,
    mesh_url := none, progress := 0, error_message := none,
    agent_name := none, concept_only := some false }

/-- A plain full job in PENDING. -/
def fullPendingJob : Job :=
  { id := "job_f", description := "d", style := "figurine", size_mm := 50,
    status := "pending", created_at := 0, updated_at := 0,
    image_path := none, image_url := none, mesh_path := none,
    mesh_url := none, progress := 0, error_message := none,
    agent_name := none, concept_only := some false }

/-! Claim C9. -/

/-- Claim C9: generate_mesh_for_job on an unknown job id, or on an
existing job whose image_path is unset, returns False without invoking
the mesh adapter and without writing anything: the table is returned
unchanged (so the job is in particular not marked FAILED) and the call
trace is empty. -/
theorem C9_generate_mesh_noop (env : PipelineEnv) (db : List Job)
    (job_id mesh_style material_key : String) :
    (getJob db job_id = none →
      generateMeshForJob env db job_id mesh_style material_key = (false, db, [])) ∧
    (∀ job, getJob db job_id = some job → job.image_path = none →
      generateMeshForJob env db job_id mesh_style material_key = (false, db, [])) := by
  constructor
  · intro h
    simp [generateMeshForJob, h]
  · intro job h hip
    simp [generateMeshForJob, h, hip]

/-- Witness for C9: sampleJob exists but has no concept image. -/
theorem C9_generate_mesh_noop_witness :
    getJob [sampleJob] "a" = some sampleJob ∧ sampleJob.image_path = none ∧
    generateMeshForJob envOkJob [sampleJob] "a" "detailed" "plastic_white"
      = (false, [sampleJob], []) :=
  ⟨by decide, rfl,
    (C9_generate_mesh_noop envOkJob [sampleJob] "a" "detailed" "plastic_white").2
      sampleJob (by decide) rfl⟩

theorem statusWrites_append (l1 l2 : List Call) :
    statusWrites (l1 ++ l2) = statusWrites l1 ++ statusWrites l2 := by
  simp [statusWrites, List.filterMap_append]

theorem progressOnlyWrites_append (l1 l2 : List Call) :
    progressOnlyWrites (l1 ++ l2)
      = progressOnlyWrites l1 ++ progressOnlyWrites l2 := by
  simp [progressOnlyWrites, List.filterMap_append]

theorem meshCalls_append (l1 l2 : List Call) :
    meshCalls (l1 ++ l2) = meshCalls l1 ++ meshCalls l2 := by
  simp [meshCalls, List.filter_append]

/-! Claim C2. -/

/-- Counterexample to claim C2: generate_mesh_for_job checks only that
the job exists and has a concept image, never its status, so it moves a
COMPLETED job back to CONVERTING_3D — a transition the claimed state
graph forbids. -/
theorem C2_counterexample :
    (getJob [completedJob] "job_d").map (fun j => j.status) = some "completed" ∧
    statusWrites (generateMeshForJob envOkJob [completedJob] "job_d"
      "detailed" "plastic_white").2.2 = ["converting_3d", "completed"] ∧
    chainOk "completed" ["converting_3d", "completed"] = false := by
  refine ⟨rfl, ?_, rfl⟩
  rfl

/-- Claim C2 (amended): every status transition written by process_job on
a PENDING job follows PENDING → GENERATING_IMAGE → (CONCEPT_READY |
CONVERTING_3D) → COMPLETED with FAILED only from non-terminal states, and
every transition written by generate_mesh_for_job on a CONCEPT_READY job
follows the deferred re-entry CONCEPT_READY → CONVERTING_3D →
(COMPLETED | FAILED); however generate_mesh_for_job performs no status
check, so on a COMPLETED or FAILED job it writes CONVERTING_3D (see the
counterexample), and the unrestricted claim fails. -/
theorem C2_amended :
    (∀ env db job_id job, getJob db job_id = some job → job.status = "pending" →
      chainOk job.status (statusWrites (processJob env db job_id).2.2) = true) ∧
    (∀ env db job_id mesh_style material_key job, getJob db job_id = some job →
      job.status = "concept_ready" →
      chainOk job.status (statusWrites
        (generateMeshForJob env db job_id mesh_style material_key).2.2) = true) := by
  constructor
  · intro env db job_id job h hst
    obtain ⟨now, ig, ri, mr, mo⟩ := env
    rw [hst]
    simp only [processJob, h]
    cases ig with
    | error msg =>
        simp [statusWrites, kwargsStatus, failKw, chainOk, allowedTransition]
    | ok u =>
        by_cases hco : ((job.concept_only == some true) || startsWithPy job_id "concept_")
        · simp only [hco, if_true]
          simp [statusWrites, kwargsStatus, chainOk, allowedTransition]
        · simp only [hco, if_false, Bool.false_eq_true]
          cases ri with
          | error msg =>
              simp [statusWrites, kwargsStatus, failKw, chainOk, allowedTransition]
          | ok b64 =>
              cases mo with
              | error msg =>
                  simp only [statusWrites_append, statusWrites_meshProgressWrites]
                  simp [statusWrites, kwargsStatus, failKw, chainOk, allowedTransition]
              | ok m =>
                  simp only [statusWrites_append, statusWrites_meshProgressWrites]
                  simp [statusWrites, kwargsStatus, failKw, completedKw, chainOk,
                    allowedTransition]
  · intro env db job_id mesh_style material_key job h hst
    obtain ⟨now, ig, ri, mr, mo⟩ := env
    rw [hst]
    simp only [generateMeshForJob, h]
    cases hip : job.image_path with
    | none => simp [statusWrites, chainOk]
    | some p =>
        cases ri with
        | error msg =>
            simp [statusWrites, kwargsStatus, failKw, chainOk, allowedTransition]
        | ok b64 =>
            cases mo with
            | error msg =>
                simp only [statusWrites_append, statusWrites_meshProgressWrites]
                simp [statusWrites, kwargsStatus, failKw, chainOk, allowedTransition]
            | ok m =>
                simp only [statusWrites_append, statusWrites_meshProgressWrites]
                simp [statusWrites, kwargsStatus, failKw, completedKw, chainOk,
                  allowedTransition]

/-- Witness for C2 (amended): the deferred trigger on a CONCEPT_READY job
writes only legal transitions. -/
theorem C2_amended_witness :
    chainOk conceptReadyJob.status (statusWrites
      (generateMeshForJob envOkJob [conceptReadyJob] "c1"
        "detailed" "plastic_white").2.2) = true :=
  C2_amended.2 envOkJob [conceptReadyJob] "c1" "detailed" "plastic_white"
    conceptReadyJob (by decide) rfl

/-! Claim C3. -/

/-- Counterexample to claim C3: in generate_mesh_for_job the progress
callback persists 50 + int(p * 0.5), so the backend report 90 is stored
as the intermediate progress value 95, which exceeds 90. -/
theorem C3_counterexample :
    progressOnlyWrites (generateMeshForJob envRep90 [conceptReadyJob] "c1"
      "detailed" "plastic_white").2.2 = [95] ∧ ¬ ((95 : Int) ≤ 90) := by
  constructor
  · rfl
  · decide

/-- Claim C3 (amended): the mesh-stage progress callback of process_job
maps each backend report p linearly onto 50..90 (persisting
50 + 2p/5), but the callback of generate_mesh_for_job persists
50 + p/2, mapping onto 50..100, so its intermediate updates can
exceed 90 (see the counterexample). -/
theorem C3_amended :
    (∀ env db job_id,
      ∀ v ∈ progressOnlyWrites (processJob env db job_id).2.2,
        ∃ p ∈ env.meshReports, v = ((processMeshProgress p : Nat) : Int)) ∧
    (∀ env db job_id, (∀ p ∈ env.meshReports, p ≤ 100) →
      ∀ v ∈ progressOnlyWrites (processJob env db job_id).2.2,
        50 ≤ v ∧ v ≤ 90) ∧
    (∀ env db job_id mesh_style material_key,
      ∀ v ∈ progressOnlyWrites
          (generateMeshForJob env db job_id mesh_style material_key).2.2,
        ∃ p ∈ env.meshReports, v = ((genMeshProgress p : Nat) : Int)) ∧
    (∀ env db job_id mesh_style material_key, (∀ p ∈ env.meshReports, p ≤ 100) →
      ∀ v ∈ progressOnlyWrites
          (generateMeshForJob env db job_id mesh_style material_key).2.2,
        50 ≤ v ∧ v ≤ 100) := by
  have hproc : ∀ env db job_id,
      ∀ v ∈ progressOnlyWrites (processJob env db job_id).2.2,
        ∃ p ∈ env.meshReports, v = ((processMeshProgress p : Nat) : Int) := by
    intro env db job_id v hv
    obtain ⟨now, ig, ri, mr, mo⟩ := env
    simp only [processJob] at hv
    rcases h : getJob db job_id with _ | job
    · rw [h] at hv; simp [progressOnlyWrites] at hv
    · rw [h] at hv
      cases ig with
      | error msg => simp [progressOnlyWrites, failKw] at hv
      | ok u =>
          by_cases hco : ((job.concept_only == some true) || startsWithPy job_id "concept_")
          · simp only [hco, if_true] at hv
            simp [progressOnlyWrites] at hv
          · simp only [hco, if_false, Bool.false_eq_true] at hv
            cases ri with
            | error msg => simp [progressOnlyWrites, failKw] at hv
            | ok b64 =>
                cases mo with
                | error msg =>
                    simp only [progressOnlyWrites_append,
                      progressOnlyWrites_meshProgressWrites] at hv
                    simp [progressOnlyWrites, failKw] at hv
                    obtain ⟨p, hp, hpv⟩ := hv
                    exact ⟨p, hp, hpv.symm⟩
                | ok m =>
                    simp only [progressOnlyWrites_append,
                      progressOnlyWrites_meshProgressWrites] at hv
                    simp [progressOnlyWrites, completedKw] at hv
                    obtain ⟨p, hp, hpv⟩ := hv
                    exact ⟨p, hp, hpv.symm⟩
  have hgen : ∀ env db job_id mesh_style material_key,
      ∀ v ∈ progressOnlyWrites
          (generateMeshForJob env db job_id mesh_style material_key).2.2,
        ∃ p ∈ env.meshReports, v = ((genMeshProgress p : Nat) : Int) := by
    intro env db job_id mesh_style material_key v hv
    obtain ⟨now, ig, ri, mr, mo⟩ := env
    rcases h : getJob db job_id with _ | job
    · simp only [generateMeshForJob, h] at hv
      simp [progressOnlyWrites] at hv
    · simp only [generateMeshForJob, h] at hv
      rcases hip : job.image_path with _ | p0
      · rw [hip] at hv; simp [progressOnlyWrites] at hv
      · rw [hip] at hv
        cases ri with
        | error msg => simp [progressOnlyWrites, failKw] at hv
        | ok b64 =>
            cases mo with
            | error msg =>
                simp only [progressOnlyWrites_append,
                  progressOnlyWrites_meshProgressWrites] at hv
                simp [progressOnlyWrites, failKw] at hv
                obtain ⟨p, hp, hpv⟩ := hv
                exact ⟨p, hp, hpv.symm⟩
            | ok m =>
                simp only [progressOnlyWrites_append,
                  progressOnlyWrites_meshProgressWrites] at hv
                simp [progressOnlyWrites, completedKw] at hv
                obtain ⟨p, hp, hpv⟩ := hv
                exact ⟨p, hp, hpv.symm⟩
  refine ⟨hproc, ?_, hgen, ?_⟩
  · intro env db job_id hb v hv
    obtain ⟨p, hp, rfl⟩ := hproc env db job_id v hv
    have hple := hb p hp
    unfold processMeshProgress
    constructor
    · omega
    · have : 2 * p / 5 ≤ 40 := by omega
      omega
  · intro env db job_id mesh_style material_key hb v hv
    obtain ⟨p, hp, rfl⟩ := hgen env db job_id mesh_style material_key v hv
    have hple := hb p hp
    unfold genMeshProgress
    constructor
    · omega
    · have : p / 2 ≤ 50 := by omega
      omega

/-- Witness for C3 (amended): the process_job mesh callback on the sample
environment stays within 50..90. -/
theorem C3_amended_witness :
    50 ≤ ((processMeshProgress 55 : Nat) : Int)
      ∧ ((processMeshProgress 55 : Nat) : Int) ≤ 90 :=
  C3_amended.2.1 envOkJob [fullPendingJob] "job_f" (by decide)
    ((processMeshProgress 55 : Nat) : Int) (by decide)

/-! Claim C4. -/

/-- Counterexample to claim C4: a job whose id starts with concept_ but
whose concept_only column is explicitly False is still processed as a
concept-only job — process_job computes the flag as concept_only OR the
id prefix, so the legacy prefix overrides the explicit False flag and the
pass halts at CONCEPT_READY without ever calling the mesh adapter. -/
theorem C4_counterexample :
    conceptPrefixJob.concept_only = some false ∧
    (processJob envOkJob [conceptPrefixJob] "concept_x").1 = true ∧
    ((getJob (processJob envOkJob [conceptPrefixJob] "concept_x").2.1
        "concept_x").map (fun j => (j.status, j.mesh_path)))
      = some ("concept_ready", none) ∧
    meshCalls (processJob envOkJob [conceptPrefixJob] "concept_x").2.2 = [] := by
  refine ⟨rfl, by decide, by decide, by decide⟩

/-- Claim C4 (amended): process_job treats a job as concept-only exactly
when its explicit concept_only flag is True OR its id starts with
concept_ — the id prefix is consulted and overrides a false or missing
flag, rather than the explicit flag being preferred.  Concretely, after a
successful image stage the pass enters CONVERTING_3D precisely when
neither signal marks the job concept-only. -/
theorem C4_amended (env : PipelineEnv) (db : List Job) (job_id : String)
    (job : Job) (h : getJob db job_id = some job)
    (himg : env.imageGen = Except.ok ()) :
    (((job.concept_only == some true) || startsWithPy job_id "concept_") = false
      ↔ "converting_3d" ∈ statusWrites (processJob env db job_id).2.2) := by
  obtain ⟨now, ig, ri, mr, mo⟩ := env
  cases himg
  simp only [processJob, h]
  by_cases hco : ((job.concept_only == some true) || startsWithPy job_id "concept_")
  · simp only [hco, if_true]
    simp [statusWrites, kwargsStatus]
  · simp only [hco, if_false, Bool.false_eq_true]
    cases ri with
    | error msg =>
        simp only [Bool.not_eq_true] at hco
        simp [hco, statusWrites, kwargsStatus, failKw]
    | ok b64 =>
        cases mo with
        | error msg =>
            simp only [Bool.not_eq_true] at hco
            simp only [statusWrites_append, statusWrites_meshProgressWrites]
            simp [hco, statusWrites, kwargsStatus, failKw]
        | ok m =>
            simp only [Bool.not_eq_true] at hco
            simp only [statusWrites_append, statusWrites_meshProgressWrites]
            simp [hco, statusWrites, kwargsStatus, completedKw]

/-- Witness for C4 (amended): a plain full job reaches CONVERTING_3D. -/
theorem C4_amended_witness :
    (((fullPendingJob.concept_only == some true)
        || startsWithPy "job_f" "concept_") = false
      ↔ "converting_3d" ∈ statusWrites (processJob envOkJob [fullPendingJob]
        "job_f").2.2) :=
  C4_amended envOkJob [fullPendingJob] "job_f" fullPendingJob (by decide) rfl

/-! Claim C7. -/

/-- Claim C7: a concept-only job submitted through submit_concept_job
whose image generation succeeds ends its pass with status CONCEPT_READY,
progress 100, image_path set and mesh_path unset, the pass returns True,
and the mesh adapter is never invoked during the pass. -/
theorem C7_concept_halt (db : List Job) (agent desc style suffix : String)
    (env : PipelineEnv) (himg : env.imageGen = Except.ok ())
    (hfresh : getJob db ("concept_" ++ suffix) = none) :
    (processJob env (submitConceptJob db agent desc style suffix env.now).2
        ("concept_" ++ suffix)).1 = true ∧
    meshCalls (processJob env (submitConceptJob db agent desc style suffix
        env.now).2 ("concept_" ++ suffix)).2.2 = [] ∧
    ∃ j, getJob (processJob env (submitConceptJob db agent desc style suffix
          env.now).2 ("concept_" ++ suffix)).2.1 ("concept_" ++ suffix) = some j ∧
      j.status = "concept_ready" ∧ j.progress = 100 ∧
      j.image_path.isSome = true ∧ j.mesh_path = none := by
  obtain ⟨now, ig, ri, mr, mo⟩ := env
  cases himg
  simp only [submitConceptJob, create_job]
  have hNew := getJob_append_fresh hfresh
    (j := (create_job db ("concept_" ++ suffix) desc style 0 (some agent) true now).1)
    rfl
  simp only [create_job] at hNew
  simp only [processJob, hNew]
  have hco : ((((create_job db ("concept_" ++ suffix) desc style 0 (some agent)
      true now).1).concept_only == some true)
      || startsWithPy ("concept_" ++ suffix) "concept_") = true := by
    simp [create_job]
  simp only [create_job] at hco
  rw [hco]
  simp only [if_true]
  refine ⟨by trivial, by simp [meshCalls], ?_⟩
  have h1 := update_job_step
    [("status", Val.vStr "generating_image"), ("progress", Val.vInt 20)]
    now hNew (by rw [applyKwargs_statusProgress])
  rw [applyKwargs_statusProgress] at h1
  have h2 := update_job_step
    [("image_path", Val.vStr ("/output/" ++ ("concept_" ++ suffix ++ "_"
        ++ toString now ++ ".png"))),
     ("image_url", Val.vStr ("/output/" ++ ("concept_" ++ suffix ++ "_"
        ++ toString now ++ ".png"))),
     ("progress", Val.vInt 100), ("status", Val.vStr "concept_ready")]
    now h1 (by rw [applyKwargs_imageDone])
  rw [applyKwargs_imageDone] at h2
  exact ⟨_, h2, rfl, rfl, rfl, rfl⟩

/-- Witness for C7 on an empty table. -/
theorem C7_concept_halt_witness :
    (processJob envOkJob (submitConceptJob [] "ag" "a dragon" "sculpture" "s1"
        envOkJob.now).2 ("concept_" ++ "s1")).1 = true ∧
    meshCalls (processJob envOkJob (submitConceptJob [] "ag" "a dragon" "sculpture"
        "s1" envOkJob.now).2 ("concept_" ++ "s1")).2.2 = [] ∧
    ∃ j, getJob (processJob envOkJob (submitConceptJob [] "ag" "a dragon"
          "sculpture" "s1" envOkJob.now).2 ("concept_" ++ "s1")).2.1
        ("concept_" ++ "s1") = some j ∧
      j.status = "concept_ready" ∧ j.progress = 100 ∧
      j.image_path.isSome = true ∧ j.mesh_path = none :=
  C7_concept_halt [] "ag" "a dragon" "sculpture" "s1" envOkJob rfl rfl

/-! Flattened step lemmas: one database write at a time, with the
resulting row in normal form. -/

theorem step_statusProgress {db : List Job} {job_id : String} {j : Job}
    (s : String) (n : Int) (now : Nat) (h : getJob db job_id = some j)
    (hid : j.id = job_id) :
    getJob (update_job db job_id
        [("status", Val.vStr s), ("progress", Val.vInt n)] now).2 job_id
      = some { j with status := s, progress := n, updated_at := now } := by
  have h2 := update_job_step [("status", Val.vStr s), ("progress", Val.vInt n)]
    now h (by exact hid)
  rw [applyKwargs_statusProgress] at h2
  exact h2

theorem step_failKw {db : List Job} {job_id : String} {j : Job}
    (msg : String) (now : Nat) (h : getJob db job_id = some j)
    (hid : j.id = job_id) :
    getJob (update_job db job_id (failKw msg) now).2 job_id
      = some { j with
          status := "failed", error_message := some msg,
          updated_at := now } := by
  have h2 := update_job_step (failKw msg) now h (by exact hid)
  rw [applyKwargs_failKw] at h2
  exact h2

theorem step_imageDone {db : List Job} {job_id : String} {j : Job}
    (p u : String) (n : Int) (s : String) (now : Nat)
    (h : getJob db job_id = some j) (hid : j.id = job_id) :
    getJob (update_job db job_id
        [("image_path", Val.vStr p), ("image_url", Val.vStr u),
         ("progress", Val.vInt n), ("status", Val.vStr s)] now).2 job_id
      = some { j with
          image_path := some p, image_url := some u,
          progress := n, status := s, updated_at := now } := by
  have h2 := update_job_step
    [("image_path", Val.vStr p), ("image_url", Val.vStr u),
     ("progress", Val.vInt n), ("status", Val.vStr s)] now h (by exact hid)
  rw [applyKwargs_imageDone] at h2
  exact h2

theorem step_completedKw {db : List Job} {job_id : String} {j : Job}
    (fn : String) (mo : MeshOut) (now : Nat)
    (h : getJob db job_id = some j) (hid : j.id = job_id) :
    getJob (update_job db job_id (completedKw fn mo) now).2 job_id
      = some { j with
          mesh_path := some ("/output/" ++ fn),
          mesh_url := (match lookupUrl "glb" mo.model_urls with
            | some u => some u
            | none => lookupUrl "obj" mo.model_urls),
          progress := 100, status := "completed", updated_at := now } := by
  have h2 := update_job_step (completedKw fn mo) now h
    (by rw [applyKwargs_completedKw]; exact hid)
  rw [applyKwargs_completedKw] at h2
  exact h2

/-! Claim C6. -/

/-- An environment whose image stage raises. -/
def envImgFail : PipelineEnv :=
  { now := 5
    imageGen := Except.error "boom"
    readImage := Except.ok "QUJD"
    meshReports := []
    meshOutcome := Except.error "unused" }

/-- Claim C6: whatever stage of process_job raises (image generation,
reading the image back, or the mesh stage including the backend submit),
the exception is caught, the job is persisted with status FAILED and
error_message equal to the exception text, and process_job returns False
instead of propagating; consequently the worker loop visits every queued
id in order, so jobs queued after a failing one are still processed. -/
theorem C6_failure_isolation :
    (∀ env db job_id job msg, getJob db job_id = some job →
      env.imageGen = Except.error msg →
      (processJob env db job_id).1 = false ∧
      ∃ j, getJob (processJob env db job_id).2.1 job_id = some j ∧
        j.status = "failed" ∧ j.error_message = some msg) ∧
    (∀ env db job_id job msg, getJob db job_id = some job →
      env.imageGen = Except.ok () → env.readImage = Except.error msg →
      (((job.concept_only == some true) || startsWithPy job_id "concept_") = false) →
      (processJob env db job_id).1 = false ∧
      ∃ j, getJob (processJob env db job_id).2.1 job_id = some j ∧
        j.status = "failed" ∧ j.error_message = some msg) ∧
    (∀ env db job_id job msg b64, getJob db job_id = some job →
      env.imageGen = Except.ok () → env.readImage = Except.ok b64 →
      env.meshOutcome = Except.error msg →
      (((job.concept_only == some true) || startsWithPy job_id "concept_") = false) →
      (processJob env db job_id).1 = false ∧
      ∃ j, getJob (processJob env db job_id).2.1 job_id = some j ∧
        j.status = "failed" ∧ j.error_message = some msg) ∧
    (∀ envs db ids, ((workerRun envs db ids).2.map Prod.fst) = ids) := by
  refine ⟨?_, ?_, ?_, ?_⟩
  · intro env db job_id job msg h himg
    obtain ⟨now, ig, ri, mr, mo⟩ := env
    cases himg
    simp only [processJob, h]
    have h1 := step_statusProgress "generating_image" 20 now h (getJob_some_id h)
    have hF := step_failKw msg now h1 (getJob_some_id h1)
    exact ⟨by trivial, _, hF, rfl, rfl⟩
  · intro env db job_id job msg h himg hri hco
    obtain ⟨now, ig, ri, mr, mo⟩ := env
    cases himg
    cases hri
    simp only [processJob, h]
    simp only [hco, Bool.false_eq_true, if_false]
    have h1 := step_statusProgress "generating_image" 20 now h (getJob_some_id h)
    have h1f : getJob (update_job db job_id
        [("status", Val.vStr "generating_image"), ("progress", Val.vInt 20)]
        now).2 job_id
        = some { job with
            status := "generating_image", progress := 20, updated_at := now } := h1
    have h2 := step_imageDone ("/output/" ++ (job_id ++ "_" ++ toString now
        ++ ".png")) ("/output/" ++ (job_id ++ "_" ++ toString now ++ ".png"))
      40 "generating_image" now h1f (getJob_some_id h1f)
    have h2f : getJob (update_job (update_job db job_id
          [("status", Val.vStr "generating_image"), ("progress", Val.vInt 20)]
          now).2 job_id
        [("image_path", Val.vStr ("/output/" ++ (job_id ++ "_" ++ toString now
            ++ ".png"))),
         ("image_url", Val.vStr ("/output/" ++ (job_id ++ "_" ++ toString now
            ++ ".png"))),
         ("progress", Val.vInt 40), ("status", Val.vStr "generating_image")]
        now).2 job_id
        = some { job with
            status := "generating_image", progress := 40, updated_at := now,
            image_path := some ("/output/" ++ (job_id ++ "_" ++ toString now
              ++ ".png")),
            image_url := some ("/output/" ++ (job_id ++ "_" ++ toString now
              ++ ".png")) } := h2
    have h3 := step_statusProgress "converting_3d" 50 now h2f (getJob_some_id h2f)
    have hF := step_failKw msg now h3 (getJob_some_id h3)
    exact ⟨by trivial, _, hF, rfl, rfl⟩
  · intro env db job_id job msg b64 h himg hri hmo hco
    obtain ⟨now, ig, ri, mr, mo⟩ := env
    cases himg
    cases hri
    cases hmo
    simp only [processJob, h]
    simp only [hco, Bool.false_eq_true, if_false]
    have h1 := step_statusProgress "generating_image" 20 now h (getJob_some_id h)
    have h1f : getJob (update_job db job_id
        [("status", Val.vStr "generating_image"), ("progress", Val.vInt 20)]
        now).2 job_id
        = some { job with
            status := "generating_image", progress := 20, updated_at := now } := h1
    have h2 := step_imageDone ("/output/" ++ (job_id ++ "_" ++ toString now
        ++ ".png")) ("/output/" ++ (job_id ++ "_" ++ toString now ++ ".png"))
      40 "generating_image" now h1f (getJob_some_id h1f)
    have h2f : getJob (update_job (update_job db job_id
          [("status", Val.vStr "generating_image"), ("progress", Val.vInt 20)]
          now).2 job_id
        [("image_path", Val.vStr ("/output/" ++ (job_id ++ "_" ++ toString now
            ++ ".png"))),
         ("image_url", Val.vStr ("/output/" ++ (job_id ++ "_" ++ toString now
            ++ ".png"))),
         ("progress", Val.vInt 40), ("status", Val.vStr "generating_image")]
        now).2 job_id
        = some { job with
            status := "generating_image", progress := 40, updated_at := now,
            image_path := some ("/output/" ++ (job_id ++ "_" ++ toString now
              ++ ".png")),
            image_url := some ("/output/" ++ (job_id ++ "_" ++ toString now
              ++ ".png")) } := h2
    have h3 := step_statusProgress "converting_3d" 50 now h2f (getJob_some_id h2f)
    obtain ⟨j4, h4, hid4, _⟩ := meshProgressWrites_keeps processMeshProgress now mr
      _ _ h3 (getJob_some_id h3)
    have hF := step_failKw msg now h4 hid4
    exact ⟨by trivial, _, hF, rfl, rfl⟩
  · intro envs db ids
    induction ids generalizing db with
    | nil => rfl
    | cons id rest ih => simp [workerRun, ih]

/-- Witness for C6: a raising image backend marks the job FAILED with the
exception text, and the run returns False. -/
theorem C6_failure_isolation_witness :
    (processJob envImgFail [fullPendingJob] "job_f").1 = false ∧
    ∃ j, getJob (processJob envImgFail [fullPendingJob] "job_f").2.1 "job_f"
        = some j ∧ j.status = "failed" ∧ j.error_message = some "boom" :=
  C6_failure_isolation.1 envImgFail [fullPendingJob] "job_f" fullPendingJob
    "boom" (by decide) rfl

/-! Claim C1. -/

/-- Counterexample to claim C1: for user selection ("stylized",
"plastic_white") the derived options are lowpoly with a 5000 polycount
target and PBR off, but generate_mesh_for_job invokes from_image with no
options argument, so the task is submitted with the adapter defaults —
PBR on and no polycount target — independent of the selection (the
options kwargs in the source are commented out). -/
theorem C1_counterexample :
    (MeshGenerationOptions.from_user_selection "stylized" "plastic_white").enable_pbr
        = false ∧
    (MeshGenerationOptions.from_user_selection "stylized" "plastic_white").model_type
        = "lowpoly" ∧
    (MeshGenerationOptions.from_user_selection "stylized" "plastic_white").target_polycount
        = some 5000 ∧
    meshCalls (generateMeshForJob envOkJob [conceptReadyJob] "c1" "stylized"
        "plastic_white").2.2
      = [Call.meshFromImage "data:image/png;base64,QUJD" none "glb"] ∧
    createTaskPayload "data:image/png;base64,QUJD" none
      = [("image_url", Val.vStr "data:image/png;base64,QUJD"),
         ("topology", Val.vStr "triangle"), ("enable_pbr", Val.vBool true)] := by
  refine ⟨rfl, rfl, rfl, by decide, rfl⟩

/-- Claim C1 (amended): from_user_selection derives the options exactly
as the spec describes — detailed maps to the standard preset with a high
polycount target, stylized to the lowpoly preset with a low one, and PBR
is enabled exactly when the material supports full color — but
generate_mesh_for_job never forwards them: every mesh backend call it
makes passes no options, so the submitted task uses the MeshOptions
defaults regardless of (mesh_style, material_key). -/
theorem C1_amended :
    (∀ material_key,
      (MeshGenerationOptions.from_user_selection "detailed" material_key).model_type
          = "standard" ∧
      (MeshGenerationOptions.from_user_selection "detailed" material_key).target_polycount
          = some 100000 ∧
      (MeshGenerationOptions.from_user_selection "stylized" material_key).model_type
          = "lowpoly" ∧
      (MeshGenerationOptions.from_user_selection "stylized" material_key).target_polycount
          = some 5000) ∧
    (∀ style_key material_key,
      (MeshGenerationOptions.from_user_selection style_key material_key).enable_pbr
        = (match get_material material_key with
           | some m => m.supports_full_color
           | none => false)) ∧
    (∀ env db job_id mesh_style material_key c,
      c ∈ meshCalls (generateMeshForJob env db job_id mesh_style material_key).2.2 →
      ∃ image_url, c = Call.meshFromImage image_url none "glb") := by
  refine ⟨?_, ?_, ?_⟩
  · intro material_key
    exact ⟨rfl, rfl, rfl, rfl⟩
  · intro style_key material_key
    rfl
  · intro env db job_id mesh_style material_key c hc
    obtain ⟨now, ig, ri, mr, mo⟩ := env
    rcases h : getJob db job_id with _ | job
    · simp only [generateMeshForJob, h] at hc
      simp [meshCalls] at hc
    · simp only [generateMeshForJob, h] at hc
      rcases hip : job.image_path with _ | p0
      · rw [hip] at hc
        simp [meshCalls] at hc
      · rw [hip] at hc
        cases ri with
        | error msg =>
            simp [meshCalls, failKw] at hc
        | ok b64 =>
            cases mo with
            | error msg =>
                simp only [meshCalls_append, meshCalls_meshProgressWrites] at hc
                simp [meshCalls, failKw] at hc
                exact ⟨_, hc⟩
            | ok m =>
                simp only [meshCalls_append, meshCalls_meshProgressWrites] at hc
                simp [meshCalls, completedKw] at hc
                exact ⟨_, hc⟩

/-- Witness for C1 (amended): the one mesh call of a concrete deferred
run passes no options. -/
theorem C1_amended_witness :
    ∃ image_url, Call.meshFromImage "data:image/png;base64,QUJD" none "glb"
        = Call.meshFromImage image_url none "glb" :=
  C1_amended.2.2 envOkJob [conceptReadyJob] "c1" "stylized" "plastic_white"
    (Call.meshFromImage "data:image/png;base64,QUJD" none "glb") (by decide)

/-! Claim C5. -/

/-- The poll result of the obj-only backend world. -/
def rObjOnly : PollRes :=
  { status := TaskStatus.SUCCEEDED, progress := 100, model_urls := [("obj", "u")] }

/-- Mesh backend world in which the task succeeds on the first poll but
only an obj artifact is returned. -/
def menvObjOnly : MeshEnv :=
  { createTask := Except.ok "t1"
    polls := fun _ => rObjOnly
    elapsed := fun i => i
    timeout := 100
    fetch := fun _ => Except.ok () }

/-- The pipeline environment induced by menvObjOnly: from_image raises
ValueError because glb is missing from the returned format map. -/
def envObjOnly : PipelineEnv :=
  { now := 5
    imageGen := Except.ok ()
    readImage := Except.ok "QUJD"
    meshReports := [100]
    meshOutcome := Except.error "Format glb not available. Available: obj" }

/-- Counterexample to claim C5: with a successful backend pass whose url
map lacks glb, from_image raises the ValueError of download instead of
falling back to the returned obj format, and process_job persists the job
as FAILED — it does not reach COMPLETED. -/
theorem C5_counterexample :
    fromImage menvObjOnly "glb" 5
      = some (Except.error "Format glb not available. Available: obj", [100]) ∧
    (processJob envObjOnly [fullPendingJob] "job_f").1 = false ∧
    ((getJob (processJob envObjOnly [fullPendingJob] "job_f").2.1 "job_f").map
      (fun j => (j.status, j.error_message)))
      = some ("failed", some "Format glb not available. Available: obj") := by
  refine ⟨rfl, rfl, by decide⟩

/-- Claim C5 (amended): when the backend reports success but the returned
format-url map lacks the preferred glb format, download raises ValueError
(no fallback to the formats that were returned), from_image propagates
that error, and process_job persists the job as FAILED with the ValueError
text as error_message — the job does not reach COMPLETED. -/
theorem C5_amended :
    (∀ tid r format fetch, lookupUrl format r.model_urls = none →
      downloadMesh tid r format fetch
        = Except.error ("Format " ++ format ++ " not available. Available: "
            ++ String.intercalate ", " (r.model_urls.map (fun kv => kv.1)))) ∧
    (∀ menv tid r reps fuel, menv.createTask = Except.ok tid →
      waitFrom tid menv.polls menv.elapsed menv.timeout 0 (-1) fuel
        = some (Except.ok r, reps) →
      lookupUrl "glb" r.model_urls = none →
      fromImage menv "glb" fuel
        = some (Except.error ("Format glb not available. Available: "
            ++ String.intercalate ", " (r.model_urls.map (fun kv => kv.1))), reps)) ∧
    (∀ env db job_id job msg b64, getJob db job_id = some job →
      env.imageGen = Except.ok () → env.readImage = Except.ok b64 →
      env.meshOutcome = Except.error msg →
      (((job.concept_only == some true) || startsWithPy job_id "concept_") = false) →
      (processJob env db job_id).1 = false ∧
      ∃ j, getJob (processJob env db job_id).2.1 job_id = some j ∧
        j.status = "failed" ∧ j.status ≠ "completed" ∧
        j.error_message = some msg) := by
  refine ⟨?_, ?_, ?_⟩
  · intro tid r format fetch hmiss
    unfold downloadMesh
    rw [hmiss]
  · intro menv tid r reps fuel hct hwait hmiss
    simp only [fromImage, hct, hwait, downloadMesh, hmiss]
    rfl
  · intro env db job_id job msg b64 h himg hri hmo hco
    obtain ⟨now, ig, ri, mr, mo⟩ := env
    cases himg
    cases hri
    cases hmo
    simp only [processJob, h]
    simp only [hco, Bool.false_eq_true, if_false]
    have h1 := step_statusProgress "generating_image" 20 now h (getJob_some_id h)
    have h1f : getJob (update_job db job_id
        [("status", Val.vStr "generating_image"), ("progress", Val.vInt 20)]
        now).2 job_id
        = some { job with
            status := "generating_image", progress := 20, updated_at := now } := h1
    have h2 := step_imageDone ("/output/" ++ (job_id ++ "_" ++ toString now
        ++ ".png")) ("/output/" ++ (job_id ++ "_" ++ toString now ++ ".png"))
      40 "generating_image" now h1f (getJob_some_id h1f)
    have h2f : getJob (update_job (update_job db job_id
          [("status", Val.vStr "generating_image"), ("progress", Val.vInt 20)]
          now).2 job_id
        [("image_path", Val.vStr ("/output/" ++ (job_id ++ "_" ++ toString now
            ++ ".png"))),
         ("image_url", Val.vStr ("/output/" ++ (job_id ++ "_" ++ toString now
            ++ ".png"))),
         ("progress", Val.vInt 40), ("status", Val.vStr "generating_image")]
        now).2 job_id
        = some { job with
            status := "generating_image", progress := 40, updated_at := now,
            image_path := some ("/output/" ++ (job_id ++ "_" ++ toString now
              ++ ".png")),
            image_url := some ("/output/" ++ (job_id ++ "_" ++ toString now
              ++ ".png")) } := h2
    have h3 := step_statusProgress "converting_3d" 50 now h2f (getJob_some_id h2f)
    obtain ⟨j4, h4, hid4, _⟩ := meshProgressWrites_keeps processMeshProgress now mr
      _ _ h3 (getJob_some_id h3)
    have hF := step_failKw msg now h4 hid4
    refine ⟨by trivial, _, hF, rfl, by simp, rfl⟩

/-- Witness for C5 (amended): the concrete obj-only backend world. -/
theorem C5_amended_witness :
    fromImage menvObjOnly "glb" 5
      = some (Except.error ("Format glb not available. Available: "
          ++ String.intercalate ", " (rObjOnly.model_urls.map (fun kv => kv.1))),
        [100]) :=
  C5_amended.2.1 menvObjOnly "t1" rObjOnly [100] 5 rfl rfl rfl

/-! Claim C8: lemmas about the wait loop. -/

theorem waitFrom_terminates (tid : String) (polls : Nat → PollRes)
    (elapsed : Nat → Nat) (timeout pollIv : Nat) (hpi : 1 ≤ pollIv)
    (hel : ∀ n, n * pollIv ≤ elapsed n) :
    ∀ fuel i last, i ≤ timeout + 1 → timeout + 2 ≤ i + fuel →
      (waitFrom tid polls elapsed timeout i last fuel).isSome = true := by
  intro fuel
  induction fuel with
  | zero => intro i last hi hle; omega
  | succ n ih =>
      intro i last hi hle
      simp only [waitFrom]
      by_cases h1 : (polls i).isComplete
      · simp [h1]
      · by_cases h2 : (polls i).isFailed
        · simp [h1, h2]
        · by_cases h3 : timeout < elapsed i
          · simp [h1, h2, h3]
          · have hiv : i ≤ i * pollIv := by
              calc i = i * 1 := by omega
              _ ≤ i * pollIv := Nat.mul_le_mul_left i hpi
            have hit : i ≤ timeout := by
              have := hel i
              omega
            have hrec := ih (i + 1) ((polls i).progress : Int)
              (by omega) (by omega)
            rcases h4 : waitFrom tid polls elapsed timeout (i + 1)
              ((polls i).progress : Int) n with _ | ⟨out, reps⟩
            · rw [h4] at hrec; simp at hrec
            · simp [h1, h2, h3, h4]

theorem waitFrom_ok_succeeded (tid : String) (polls : Nat → PollRes)
    (elapsed : Nat → Nat) (timeout : Nat) :
    ∀ fuel i last r reps,
      waitFrom tid polls elapsed timeout i last fuel
        = some (Except.ok r, reps) →
      r.status = TaskStatus.SUCCEEDED := by
  intro fuel
  induction fuel with
  | zero => intro i last r reps h; simp [waitFrom] at h
  | succ n ih =>
      intro i last r reps h
      simp only [waitFrom] at h
      by_cases h1 : (polls i).isComplete
      · simp [h1] at h
        have : r = polls i := by tauto
        subst this
        simpa [PollRes.isComplete] using h1
      · by_cases h2 : (polls i).isFailed
        · simp [h1, h2] at h
        · by_cases h3 : timeout < elapsed i
          · simp [h1, h2, h3] at h
          · simp only [h1, h2, h3] at h
            rcases h4 : waitFrom tid polls elapsed timeout (i + 1)
              ((polls i).progress : Int) n with _ | ⟨out, reps2⟩ <;>
              simp [h4] at h
            obtain ⟨ho, _⟩ := h
            exact ih (i + 1) ((polls i).progress : Int) r reps2 (by rw [h4, ho])

theorem waitFrom_meshy_hasFailed (tid : String) (polls : Nat → PollRes)
    (elapsed : Nat → Nat) (timeout : Nat) :
    ∀ fuel i last msg reps,
      waitFrom tid polls elapsed timeout i last fuel
        = some (Except.error (WaitErr.meshy msg), reps) →
      ∃ k, (polls k).isFailed = true := by
  intro fuel
  induction fuel with
  | zero => intro i last msg reps h; simp [waitFrom] at h
  | succ n ih =>
      intro i last msg reps h
      simp only [waitFrom] at h
      by_cases h1 : (polls i).isComplete
      · simp [h1] at h
      · by_cases h2 : (polls i).isFailed
        · exact ⟨i, h2⟩
        · by_cases h3 : timeout < elapsed i
          · simp [h1, h2, h3] at h
          · simp only [h1, h2, h3] at h
            rcases h4 : waitFrom tid polls elapsed timeout (i + 1)
              ((polls i).progress : Int) n with _ | ⟨out, reps2⟩ <;>
              simp [h4] at h
            obtain ⟨ho, _⟩ := h
            exact ih (i + 1) ((polls i).progress : Int) msg reps2 (by rw [h4, ho])

theorem waitFrom_timeout_elapsed (tid : String) (polls : Nat → PollRes)
    (elapsed : Nat → Nat) (timeout : Nat) :
    ∀ fuel i last msg reps,
      waitFrom tid polls elapsed timeout i last fuel
        = some (Except.error (WaitErr.timedOut msg), reps) →
      ∃ k, timeout < elapsed k ∧ (polls k).isComplete = false
        ∧ (polls k).isFailed = false := by
  intro fuel
  induction fuel with
  | zero => intro i last msg reps h; simp [waitFrom] at h
  | succ n ih =>
      intro i last msg reps h
      simp only [waitFrom] at h
      by_cases h1 : (polls i).isComplete
      · simp [h1] at h
      · by_cases h2 : (polls i).isFailed
        · simp [h1, h2] at h
        · by_cases h3 : timeout < elapsed i
          · exact ⟨i, h3, by simpa using h1, by simpa using h2⟩
          · simp only [h1, h2, h3] at h
            rcases h4 : waitFrom tid polls elapsed timeout (i + 1)
              ((polls i).progress : Int) n with _ | ⟨out, reps2⟩ <;>
              simp [h4] at h
            obtain ⟨ho, _⟩ := h
            exact ih (i + 1) ((polls i).progress : Int) msg reps2 (by rw [h4, ho])

/-- Claim C8: with a positive poll interval and a finite timeout the wait
loop terminates within timeout + 2 polls, and its three outcomes are never
conflated: a normal return carries a SUCCEEDED result, a MeshyAPIError is
raised only when some poll reported FAILED or EXPIRED, and a TimeoutError
is raised only when the maximum wait elapsed at a poll that was neither
succeeded nor failed. -/
theorem C8_wait_distinct_outcomes (tid : String) (polls : Nat → PollRes)
    (elapsed : Nat → Nat) (timeout pollIv : Nat) (hpi : 1 ≤ pollIv)
    (hel : ∀ n, n * pollIv ≤ elapsed n) :
    ∃ out reps, waitFrom tid polls elapsed timeout 0 (-1) (timeout + 2)
        = some (out, reps) ∧
      (∀ r, out = Except.ok r → r.status = TaskStatus.SUCCEEDED) ∧
      (∀ msg, out = Except.error (WaitErr.meshy msg) →
        ∃ k, (polls k).isFailed = true) ∧
      (∀ msg, out = Except.error (WaitErr.timedOut msg) →
        ∃ k, timeout < elapsed k ∧ (polls k).isComplete = false
          ∧ (polls k).isFailed = false) := by
  have hterm := waitFrom_terminates tid polls elapsed timeout pollIv hpi hel
    (timeout + 2) 0 (-1) (by omega) (by omega)
  rcases hw : waitFrom tid polls elapsed timeout 0 (-1) (timeout + 2)
    with _ | ⟨out, reps⟩
  · rw [hw] at hterm; simp at hterm
  · refine ⟨out, reps, rfl, ?_, ?_, ?_⟩
    · intro r hr
      exact waitFrom_ok_succeeded tid polls elapsed timeout (timeout + 2) 0 (-1)
        r reps (by rw [hw, hr])
    · intro msg hm
      exact waitFrom_meshy_hasFailed tid polls elapsed timeout (timeout + 2) 0 (-1)
        msg reps (by rw [hw, hm])
    · intro msg hm
      exact waitFrom_timeout_elapsed tid polls elapsed timeout (timeout + 2) 0 (-1)
        msg reps (by rw [hw, hm])

/-- A poll stream that succeeds immediately. -/
def wPolls : Nat → PollRes := fun _ => rObjOnly

/-- One second of wall clock per poll iteration. -/
def wElapsed : Nat → Nat := fun n => n

/-- Witness for C8 at a backend that succeeds immediately. -/
theorem C8_wait_distinct_outcomes_witness :
    ∃ out reps, waitFrom "t" wPolls wElapsed 3 0 (-1) (3 + 2)
        = some (out, reps) ∧
      (∀ r, out = Except.ok r → r.status = TaskStatus.SUCCEEDED) ∧
      (∀ msg, out = Except.error (WaitErr.meshy msg) →
        ∃ k, (wPolls k).isFailed = true) ∧
      (∀ msg, out = Except.error (WaitErr.timedOut msg) →
        ∃ k, 3 < wElapsed k ∧ (wPolls k).isComplete = false
          ∧ (wPolls k).isFailed = false) :=
  C8_wait_distinct_outcomes "t" wPolls wElapsed 3 1
    (by omega) (fun n => by simp only [wElapsed]; omega)

/-! Claim C10: the field view of a row and kwargs typing. -/

/-- The value types a column stores. -/
inductive ColTy
| tStr
| tNat
| tInt
| tBool
| tOptStr
deriving DecidableEq

/-- The storage type of each column of the jobs table. -/
def colTy : String → Option ColTy
| "id" => some ColTy.tStr
| "description" => some ColTy.tStr
| "style" => some ColTy.tStr
| "size_mm" => some ColTy.tInt
| "status" => some ColTy.tStr
| "created_at" => some ColTy.tNat
| "updated_at" => some ColTy.tNat
| "image_path" => some ColTy.tOptStr
| "image_url" => some ColTy.tOptStr
| "mesh_path" => some ColTy.tOptStr
| "mesh_url" => some ColTy.tOptStr
| "progress" => some ColTy.tInt
| "error_message" => some ColTy.tOptStr
| "agent_name" => some ColTy.tOptStr
| "concept_only" => some ColTy.tBool
| _ => none

/-- Whether a value may be stored at a column of the given type. -/
def valTypeOk : Val → ColTy → Bool
| Val.vStr _, ColTy.tStr => true
| Val.vNat _, ColTy.tNat => true
| Val.vInt _, ColTy.tInt => true
| Val.vBool _, ColTy.tBool => true
| Val.vStr _, ColTy.tOptStr => true
| Val.vNone, ColTy.tOptStr => true
| _, _ => false

/-- Type-correctness of one keyword argument against the column it names;
a name that is not a column may carry any value (update_job discards it). -/
def wellTypedKw (kv : String × Val) : Bool :=
  match colTy kv.1 with
  | none => true
  | some t => valTypeOk kv.2 t

/-- A nullable boolean as a Val. -/
def optBoolVal : Option Bool → Val
| some b => Val.vBool b
| none => Val.vNone

/-- Read one column of a row as a Val (none for a non-column name). -/
def getJobField (j : Job) : String → Option Val
| "id" => some (Val.vStr j.id)
| "description" => some (Val.vStr j.description)
| "style" => some (Val.vStr j.style)
| "size_mm" => some (Val.vInt j.size_mm)
| "status" => some (Val.vStr j.status)
| "created_at" => some (Val.vNat j.created_at)
| "updated_at" => some (Val.vNat j.updated_at)
| "image_path" => some (optStrVal j.image_path)
| "image_url" => some (optStrVal j.image_url)
| "mesh_path" => some (optStrVal j.mesh_path)
| "mesh_url" => some (optStrVal j.mesh_url)
| "progress" => some (Val.vInt j.progress)
| "error_message" => some (optStrVal j.error_message)
| "agent_name" => some (optStrVal j.agent_name)
| "concept_only" => some (optBoolVal j.concept_only)
| _ => none

theorem getJobField_updated_at (j : Job) (now : Nat) (k : String)
    (h : k ≠ "updated_at") :
    getJobField { j with updated_at := now } k = getJobField j k := by
  unfold getJobField
  split <;> simp_all

theorem getJobField_set_self (j : Job) (k : String) (v : Val)
    (hA : jobHasAttr k = true) (hT : wellTypedKw (k, v) = true) :
    getJobField (setJobField j k v) k = some v := by
  have hk : k = "id" ∨ k = "description" ∨ k = "style" ∨ k = "size_mm"
      ∨ k = "status" ∨ k = "created_at" ∨ k = "updated_at" ∨ k = "image_path"
      ∨ k = "image_url" ∨ k = "mesh_path" ∨ k = "mesh_url" ∨ k = "progress"
      ∨ k = "error_message" ∨ k = "agent_name" ∨ k = "concept_only" := by
    simp [jobHasAttr, jobFieldNames] at hA
    tauto
  rcases hk with rfl|rfl|rfl|rfl|rfl|rfl|rfl|rfl|rfl|rfl|rfl|rfl|rfl|rfl|rfl <;>
    cases v <;> (first
      | rfl
      | simp [wellTypedKw, colTy, valTypeOk] at hT)

theorem getJobField_set_other (j : Job) (k k2 : String) (v : Val)
    (hA : jobHasAttr k = true) (hne : k2 ≠ k) :
    getJobField (setJobField j k v) k2 = getJobField j k2 := by
  have hk : k = "id" ∨ k = "description" ∨ k = "style" ∨ k = "size_mm"
      ∨ k = "status" ∨ k = "created_at" ∨ k = "updated_at" ∨ k = "image_path"
      ∨ k = "image_url" ∨ k = "mesh_path" ∨ k = "mesh_url" ∨ k = "progress"
      ∨ k = "error_message" ∨ k = "agent_name" ∨ k = "concept_only" := by
    simp [jobHasAttr, jobFieldNames] at hA
    tauto
  rcases hk with rfl|rfl|rfl|rfl|rfl|rfl|rfl|rfl|rfl|rfl|rfl|rfl|rfl|rfl|rfl <;>
    cases v <;>
      (unfold getJobField
       split <;> (first | rfl | simp_all))

theorem getJobField_applyKwargs_notin (kw : List (String × Val)) :
    ∀ j k, k ∉ kw.map Prod.fst →
      getJobField (applyKwargs j kw) k = getJobField j k := by
  induction kw with
  | nil => intro j k _; rfl
  | cons kv rest ih =>
      obtain ⟨k0, v0⟩ := kv
      intro j k h
      simp only [List.map_cons, List.mem_cons] at h
      push_neg at h
      obtain ⟨h1, h2⟩ := h
      simp only [applyKwargs]
      rw [ih _ k h2]
      by_cases hA : jobHasAttr k0
      · simp only [hA, if_true]
        exact getJobField_set_other j k0 k v0 hA h1
      · simp [hA]

theorem getJobField_applyKwargs (kw : List (String × Val)) :
    ∀ j k, (kw.map Prod.fst).Nodup → kw.all wellTypedKw = true →
      getJobField (applyKwargs j kw) k
        = (match kw.find? (fun kv => kv.1 == k) with
           | some kv => if jobHasAttr k then some kv.2 else getJobField j k
           | none => getJobField j k) := by
  induction kw with
  | nil => intro j k _ _; rfl
  | cons kv rest ih =>
      obtain ⟨k0, v0⟩ := kv
      intro j k hnd hwt
      simp only [List.map_cons, List.nodup_cons] at hnd
      obtain ⟨hk0, hnd2⟩ := hnd
      simp only [List.all_cons, Bool.and_eq_true] at hwt
      obtain ⟨hwt0, hwtr⟩ := hwt
      simp only [applyKwargs]
      by_cases hek : k0 = k
      · subst hek
        rw [getJobField_applyKwargs_notin rest _ k0 hk0]
        rw [@List.find?_cons_of_pos (String × Val) (fun kv => kv.1 == k0)
          (k0, v0) rest (by simp)]
        by_cases hA : jobHasAttr k0
        · simp only [hA, if_true]
          exact getJobField_set_self j k0 v0 hA hwt0
        · simp [hA]
      · rw [@List.find?_cons_of_neg (String × Val) (fun kv => kv.1 == k)
          (k0, v0) rest (by simpa using hek)]
        rw [ih _ k hnd2 hwtr]
        have hjo : getJobField
            (if jobHasAttr k0 then setJobField j k0 v0 else j) k
            = getJobField j k := by
          by_cases hA : jobHasAttr k0
          · simp only [hA, if_true]
            exact getJobField_set_other j k0 k v0 hA (fun he => hek he.symm)
          · simp [hA]
        rcases List.find? (fun kv => kv.1 == k) rest with _ | kv2 <;>
          simp [hjo]

theorem applyKwargs_filter (kw : List (String × Val)) :
    ∀ j, applyKwargs j kw
      = applyKwargs j (kw.filter (fun kv => jobHasAttr kv.1)) := by
  induction kw with
  | nil => intro j; rfl
  | cons kv rest ih =>
      obtain ⟨k0, v0⟩ := kv
      intro j
      by_cases hA : jobHasAttr k0
      · simp only [applyKwargs, List.filter_cons, hA, if_true]
        exact ih _
      · simp only [applyKwargs, List.filter_cons, hA, if_false]
        simp only [Bool.false_eq_true, if_false]
        exact ih _

/-- Claim C10: update_job on an existing job silently discards every
keyword argument whose name is not a column of the row (filtering those
out changes nothing, and no exception arises), sets every recognized
column named in the (well-typed, distinct-key) kwargs to the given value,
leaves every column not named in the kwargs at its prior value except
updated_at, which is always refreshed to the call time; on an unknown
job id it returns None and writes nothing. -/
theorem C10_update_job :
    (∀ db job_id kw now, getJob db job_id = none →
      update_job db job_id kw now = (none, db)) ∧
    (∀ db job_id kw now,
      update_job db job_id kw now
        = update_job db job_id (kw.filter (fun kv => jobHasAttr kv.1)) now) ∧
    (∀ db job_id kw now j, getJob db job_id = some j →
      (kw.map Prod.fst).Nodup → kw.all wellTypedKw = true →
      ∃ j2, update_job db job_id kw now
          = (some j2, updateJobList db job_id j2) ∧
        j2.updated_at = now ∧
        ∀ k, k ≠ "updated_at" →
          getJobField j2 k
            = (match kw.find? (fun kv => kv.1 == k) with
               | some kv => if jobHasAttr k then some kv.2 else getJobField j k
               | none => getJobField j k)) := by
  refine ⟨?_, ?_, ?_⟩
  · intro db job_id kw now h
    simp [update_job, h]
  · intro db job_id kw now
    rcases h : getJob db job_id with _ | j
    · simp [update_job, h]
    · simp only [update_job, h]
      rw [applyKwargs_filter kw j]
  · intro db job_id kw now j h hnd hwt
    refine ⟨{ applyKwargs j kw with updated_at := now },
      by simp [update_job, h], rfl, ?_⟩
    intro k hk
    rw [getJobField_updated_at _ _ _ hk]
    exact getJobField_applyKwargs kw j k hnd hwt

/-- Witness for C10: a mixed update carrying one real column and the
non-column mesh_urls_json key. -/
theorem C10_update_job_witness :
    ∃ j2, update_job [sampleJob] "a"
        [("status", Val.vStr "failed"), ("mesh_urls_json", Val.vStr "x")] 7
        = (some j2, updateJobList [sampleJob] "a" j2) ∧
      j2.updated_at = 7 ∧
      ∀ k, k ≠ "updated_at" →
        getJobField j2 k
          = (match [("status", Val.vStr "failed"),
                ("mesh_urls_json", Val.vStr "x")].find?
                (fun kv => kv.1 == k) with
             | some kv => if jobHasAttr k then some kv.2
                else getJobField sampleJob k
             | none => getJobField sampleJob k) :=
  C10_update_job.2.2 [sampleJob] "a"
    [("status", Val.vStr "failed"), ("mesh_urls_json", Val.vStr "x")] 7
    sampleJob (by decide) (by decide) (by decide)
